import Mathlib

/-
  Verification of the persistence + CSV-export core of the
  Saneh-Khao-Man-Kai customer-rotation calculator.

  The development shallowly embeds the TypeScript sources:
    * `usePersistentState` (debounced browser-storage persistence,
      shape-merge of stored values with defaults, clear/reset),
    * `useCalculatorState` (the domain adapter, `hasUnsavedChanges`),
    * `csvExport` (`formatCsvValue`, `sectionsToCSV`, `validateCsvContent`),
    * `exportData` (`createAnalysisSummary`, `convertToCSVSections`).

  Modelling conventions:
    * JS strings are `Str := List Char`.
    * JS numbers are modelled by `JsNum`: exact rationals extended with the
      IEEE special values `NaN`, `Infinity` and `-Infinity`, which the code
      can produce by dividing by zero.  Rounding of a binary double is not
      modelled; arithmetic on `JsNum` is exact rational arithmetic.
    * The debounce timer slot (`debounceRef`) is the `pending` field of a
      `PState`; `setTimeout` arms it, `clearTimeout` disarms it, and the
      timer event is the explicit `fireTimer` step.
    * Stateful React code becomes explicit state passing on `PState`.
-/

namespace SanehCalc

/-- JS strings are modelled as lists of characters. -/
abbrev Str := List Char

/-! ### Decimal rendering of numbers

`natToStr`/`intToStr` model how JS renders integral numbers
(`String(value)`, `JSON.stringify(value)`): a plain decimal numeral with a
leading `-` for negative values.  The fuel-based digit loop keeps the
definition structurally recursive (hence kernel-computable). -/

/-- The decimal digit character for `d` (`0`–`9`). -/
def digitCharOf (d : Nat) : Char :=
  match d with
  | 0 => '0' | 1 => '1' | 2 => '2' | 3 => '3' | 4 => '4'
  | 5 => '5' | 6 => '6' | 7 => '7' | 8 => '8' | 9 => '9'
  | _ => '!'

/-- Digit loop for `natToStr`: emits the decimal digits of `n`,
most significant first.  `fuel` only forces termination. -/
def natToStrAux : Nat → Nat → Str
  | 0, _ => []
  | fuel + 1, n =>
      if n = 0 then [] else natToStrAux fuel (n / 10) ++ [digitCharOf (n % 10)]

/-- Decimal numeral of a natural number, as JS renders it (`"0"` for zero). -/
def natToStr (n : Nat) : Str :=
  if n = 0 then ['0'] else natToStrAux (n + 1) n

/-- Decimal numeral of an integer, as JS renders it. -/
def intToStr (i : Int) : Str :=
  if i < 0 then '-' :: natToStr i.natAbs else natToStr i.natAbs


/-! ### JS numbers

`JsNum` models a JS `number`: an exact rational, or one of the IEEE special
values `NaN` / `Infinity` / `-Infinity` (reachable in this code base by
dividing by a zero total capacity).  Binary-double rounding is not modelled:
arithmetic on finite values is exact. -/

/-- A JS number: `NaN`, `Infinity`, `-Infinity`, or a finite (exact) value. -/
inductive JsNum where
  | nan
  | inf
  | ninf
  | fin (q : ℚ)
deriving DecidableEq

/-- JS `<` on numbers (`NaN` compares false to everything). -/
def jsLt : JsNum → JsNum → Bool
  | .nan, _ => false
  | _, .nan => false
  | .fin a, .fin b => decide (a < b)
  | .ninf, .ninf => false
  | .ninf, _ => true
  | _, .ninf => false
  | .inf, _ => false
  | .fin _, .inf => true

/-- JS `>` on numbers. -/
def jsGt (a b : JsNum) : Bool := jsLt b a

/-- JS `<=` on numbers (`NaN` compares false to everything). -/
def jsLe : JsNum → JsNum → Bool
  | .nan, _ => false
  | _, .nan => false
  | a, b => !(jsLt b a)

/-- JS `>=` on numbers. -/
def jsGe (a b : JsNum) : Bool := jsLe b a

/-- JS `Math.min` (returns `NaN` if either argument is `NaN`). -/
def jsMin : JsNum → JsNum → JsNum
  | .nan, _ => .nan
  | _, .nan => .nan
  | a, b => if jsLt b a then b else a

/-- JS `Math.abs`. -/
def jsAbs : JsNum → JsNum
  | .nan => .nan
  | .inf => .inf
  | .ninf => .inf
  | .fin q => .fin |q|

/-- JS multiplication with the IEEE special cases. -/
def jsMul : JsNum → JsNum → JsNum
  | .nan, _ => .nan
  | _, .nan => .nan
  | .fin a, .fin b => .fin (a * b)
  | .inf, .inf => .inf
  | .inf, .ninf => .ninf
  | .ninf, .inf => .ninf
  | .ninf, .ninf => .inf
  | .inf, .fin b => if 0 < b then .inf else if b < 0 then .ninf else .nan
  | .fin a, .inf => if 0 < a then .inf else if a < 0 then .ninf else .nan
  | .ninf, .fin b => if 0 < b then .ninf else if b < 0 then .inf else .nan
  | .fin a, .ninf => if 0 < a then .ninf else if a < 0 then .inf else .nan

/-- JS division: a nonzero value divided by (positive) zero gives a signed
infinity, `0 / 0` gives `NaN`; otherwise exact. -/
def jsDiv : JsNum → JsNum → JsNum
  | .nan, _ => .nan
  | _, .nan => .nan
  | .fin a, .fin b =>
      if b = 0 then (if 0 < a then .inf else if a < 0 then .ninf else .nan)
      else .fin (a / b)
  | .inf, .inf => .nan
  | .inf, .ninf => .nan
  | .ninf, .inf => .nan
  | .ninf, .ninf => .nan
  | .inf, .fin b => if 0 ≤ b then .inf else .ninf
  | .ninf, .fin b => if 0 ≤ b then .ninf else .inf
  | .fin _, .inf => .fin 0
  | .fin _, .ninf => .fin 0

/-- JS `Math.round`: half-up (`round(x) = floor(x + 0.5)`); fixes the
special values. -/
def jsRound : JsNum → JsNum
  | .fin q => .fin ((⌊q + 1/2⌋ : ℤ) : ℚ)
  | x => x

/-! ### Rendering JS numbers as text

Used for `String(value)` / template literals.  Integral values render
exactly as JS does; non-integral values render as a decimal expansion of
the exact rational (up to 17 fractional digits), which agrees with JS on
the short decimal fractions this application produces. -/

/-- Decimal expansion of a fractional part `0 ≤ q < 1` (up to `fuel`
digits, stopping when the remainder is zero). -/
def fracDigits : Nat → ℚ → Str
  | 0, _ => []
  | fuel + 1, q =>
      if q = 0 then []
      else digitCharOf (⌊q * 10⌋).toNat :: fracDigits fuel (q * 10 - (⌊q * 10⌋ : ℚ))

/-- Decimal rendering of a non-negative rational. -/
def ratToStrNN (q : ℚ) : Str :=
  natToStr (⌊q⌋).toNat ++
    (if q - (⌊q⌋ : ℚ) = 0 then [] else '.' :: fracDigits 17 (q - (⌊q⌋ : ℚ)))

/-- Decimal rendering of a rational, with sign. -/
def ratToStr (q : ℚ) : Str :=
  if q < 0 then '-' :: ratToStrNN (-q) else ratToStrNN q

/-- `String(x)` for a JS number. -/
def jsNumToStr : JsNum → Str
  | .nan => "NaN".data
  | .inf => "Infinity".data
  | .ninf => "-Infinity".data
  | .fin q => ratToStr q

/-- Renders `m / 10` with exactly one decimal digit (`m : Nat`). -/
def fixed1Render (m : Nat) : Str :=
  natToStr (m / 10) ++ ['.', digitCharOf (m % 10)]

/-- JS `x.toFixed(1)`: one-decimal fixed rendering, ties to the larger
value. -/
def toFixed1 : JsNum → Str
  | .nan => "NaN".data
  | .inf => "Infinity".data
  | .ninf => "-Infinity".data
  | .fin q =>
      let n : ℤ := ⌊q * 10 + 1/2⌋
      if n < 0 then '-' :: fixed1Render n.natAbs else fixed1Render n.toNat

/-- JS `Number(x.toFixed(1))`: rounding to one decimal place. -/
def toFixed1Num : JsNum → JsNum
  | .fin q => .fin ((⌊q * 10 + 1/2⌋ : ℤ) / (10 : ℚ))
  | x => x

/-- Renders `m / 100` with exactly two decimal digits (`m : Nat`). -/
def fixed2Render (m : Nat) : Str :=
  natToStr (m / 100) ++ ['.', digitCharOf (m % 100 / 10), digitCharOf (m % 10)]

/-- JS `q.toFixed(2)` for a finite value (used only inside the large-file
warning message). -/
def toFixed2 (q : ℚ) : Str :=
  let n : ℤ := ⌊q * 100 + 1/2⌋
  if n < 0 then '-' :: fixed2Render n.natAbs else fixed2Render n.toNat

/-! ### CSV encoder (`src: csvExport.ts`) -/

/-- A value that can appear in a CSV row
(`string | number | boolean | null | undefined`). -/
inductive CsvValue where
  | nullV
  | undef
  | str (s : Str)
  | num (x : JsNum)
  | boolV (b : Bool)
deriving DecidableEq

/-- JS `String(value)` on a `CsvValue`. -/
def stringOfCsvValue : CsvValue → Str
  | .nullV => "null".data
  | .undef => "undefined".data
  | .str s => s
  | .num x => jsNumToStr x
  | .boolV b => if b then "true".data else "false".data

/-- Does the text need CSV quoting (contains a comma, a quote or a line
break)? -/
def needsQuote (s : Str) : Bool :=
  s.any (fun c => c == ',' || c == '"' || c == '\n' || c == '\r')

/-- Doubles every quote character (`value.replace(/"/g, s)` with `s` two
quotes). -/
def escapeQuotes (s : Str) : Str :=
  s.flatMap (fun c => if c == '"' then ['"', '"'] else [c])

/-- Embeds `formatCsvValue`: null/undefined give the empty text; otherwise
the value is converted to text and quoted (with doubled inner quotes) when
it contains a comma, a quote or a line break. -/
def formatCsvValue (value : CsvValue) : Str :=
  match value with
  | .nullV => []
  | .undef => []
  | v =>
      let stringValue := stringOfCsvValue v
      if needsQuote stringValue then '"' :: escapeQuotes stringValue ++ ['"']
      else stringValue

/-- The standard CSV unquoting rule for the body of a quoted cell: a doubled
quote is one literal quote, a single quote closes the cell. -/
def unescapeQuoted : Str → Str
  | [] => []
  | c :: rest =>
      if c = '"' then
        match rest with
        | '"' :: rest2 => '"' :: unescapeQuoted rest2
        | _ => []
      else c :: unescapeQuoted rest

/-- Parses one CSV cell by the standard rule: a cell starting with a quote
is unquoted (`unescapeQuoted`), anything else is taken verbatim. -/
def parseCsvCell : Str → Str
  | '"' :: rest => unescapeQuoted rest
  | s => s

/-- A row of a CSV section: a JS record, modelled as an association list
(field order is the JS key-insertion order). -/
abbrev CsvRow := List (Str × CsvValue)

/-- A titled CSV section (`CsvSection` in `csvExport.ts`). -/
structure CsvSection where
  title : Str
  headers : List Str
  rows : List CsvRow
deriving DecidableEq

/-- The cell text for one row under given headers: with headers, cells are
looked up by header name (`row[header]`, `undefined` when absent) in header
order; without headers, the record is rendered in its own field order
(`Object.values(row)`). -/
def rowToLine (headers : List Str) (row : CsvRow) : Str :=
  if headers.length > 0 then
    List.intercalate [','] (headers.map (fun h => formatCsvValue ((List.lookup h row).getD .undef)))
  else
    List.intercalate [','] (row.map (fun p => formatCsvValue p.2))

/-- Embeds `sectionsToCSV`: walks the sections with their index (the
`forEach` loop), pushing the title line and a blank line when the title is
non-empty, the escaped header line when headers are non-empty, one line per
row, and a blank separator line after every section but the last; finally
joins all lines with a single newline. -/
def sectionsToCSV (sections : List CsvSection) : Str :=
  let csvLines :=
    (sections.enum).foldl
      (fun acc p =>
        let acc := if p.2.title ≠ [] then acc ++ [formatCsvValue (.str p.2.title)] ++ [[]] else acc
        let acc := if p.2.headers.length > 0 then
            acc ++ [List.intercalate [','] (p.2.headers.map (fun h => formatCsvValue (.str h)))]
          else acc
        let acc := acc ++ p.2.rows.map (fun row => rowToLine p.2.headers row)
        if p.1 < sections.length - 1 then acc ++ [[]] else acc)
      []
  List.intercalate ['\n'] csvLines

/-- The lines of one section, written as the specification describes them:
escaped title then a blank line (when a title is present), then the escaped
separator-joined header line (when headers are non-empty), then one line
per row. -/
def sectionLinesSpec (s : CsvSection) : List Str :=
  (if s.title ≠ [] then [formatCsvValue (.str s.title), []] else []) ++
  (if s.headers.length > 0 then
      [List.intercalate [','] (s.headers.map (fun h => formatCsvValue (.str h)))]
    else []) ++
  s.rows.map (fun row => rowToLine s.headers row)

/-- The specification-side serialization: per-section blocks separated by
one blank line, all joined by single newlines (no trailing newline). -/
def sectionsToTextSpec (sections : List CsvSection) : Str :=
  List.intercalate ['\n'] (List.intercalate [[]] (sections.map sectionLinesSpec))

/-! ### CSV validation (`src: csvExport.ts`, `validateCsvContent`) -/

/-- The result record of `validateCsvContent`. -/
structure CsvValidation where
  isValid : Bool
  warnings : List Str
  errors : List Str
deriving DecidableEq

/-- Whitespace for JS `String.trim` (the code points relevant to this
application). -/
def isJsWs (c : Char) : Bool :=
  c == ' ' || c == '\t' || c == '\n' || c == '\r' || c == '\x0b' || c == '\x0c'

/-- JS `String.trim`: strips leading and trailing whitespace. -/
def jsTrim (s : Str) : Str :=
  ((s.dropWhile isJsWs).reverse.dropWhile isJsWs).reverse

/-- The UTF-8 byte size of the content (JS `new Blob([s]).size`). -/
def utf8Len (s : Str) : Nat := (s.map Char.utf8Size).sum

/-- JS `String.includes`: does `pat` occur as a contiguous substring? -/
def containsSeq (pat : Str) : Str → Bool
  | [] => decide (pat = [])
  | c :: rest => pat.isPrefixOf (c :: rest) || containsSeq pat rest

/-- The error text for empty content. -/
def emptyContentMsg : Str := "CSV content is empty".data

/-- The leading text of the inconsistent-column-count warning. -/
def inconsistentColumnsMsg : Str := "Inconsistent column counts found in lines: ".data

/-- The encoding warning text. -/
def encodingWarningMsg : Str :=
  "Potential encoding issues detected (replacement characters found)".data

/-- The mojibake sequence the encoding check looks for (the UTF-8 bytes of
the replacement character mis-decoded as Latin-1). -/
def replacementSeq : Str := "ï¿½".data

/-- The large-file warning text around the rendered size. -/
def largeSizeMsg (sizeText : Str) : Str :=
  "Large file size: ".data ++ sizeText ++ "MB".data

/-- Embeds `validateCsvContent`: empty (or whitespace-only) content is an
error; otherwise it warns about inconsistent comma-separated field counts
across non-blank lines (reporting each offending line's position, plus
one, within the filtered non-blank lines), about the UTF-8 mis-decode
sequence, and about content over 10 MB.  It is a pure function of its
input. -/
def validateCsvContent (csvContent : Str) : CsvValidation :=
  let lines := List.splitOn '\n' csvContent
  if jsTrim csvContent = [] then
    { isValid := false, warnings := [], errors := [emptyContentMsg] }
  else
    let nonEmptyLines := lines.filter (fun line => (jsTrim line).length > 0)
    let columnWarnings :=
      if nonEmptyLines.length > 1 then
        let firstLineColumns := (List.splitOn ',' (nonEmptyLines.headD [])).length
        let inconsistentLines :=
          (nonEmptyLines.enum.map (fun p => ((List.splitOn ',' p.2).length, p.1))).filter
            (fun item => item.1 ≠ firstLineColumns)
        if inconsistentLines.length > 0 then
          [inconsistentColumnsMsg ++
            List.intercalate ", ".data (inconsistentLines.map (fun item => natToStr (item.2 + 1)))]
        else []
      else []
    let encodingWarnings :=
      if containsSeq replacementSeq csvContent then [encodingWarningMsg] else []
    let sizeWarnings :=
      if utf8Len csvContent > 10 * 1024 * 1024 then
        [largeSizeMsg (toFixed2 ((utf8Len csvContent : ℚ) / (1024 * 1024)))]
      else []
    let errors : List Str := []
    { isValid := decide (errors.length = 0),
      warnings := columnWarnings ++ encodingWarnings ++ sizeWarnings,
      errors := errors }

/-! ### Persistent state (`src: usePersistentState.ts`)

The container's mutable environment is a `PState`: the React state cell,
the single debounce-timer slot (`debounceRef`), the `isInitializedRef`
flag, the availability probe's outcome, and the managed storage entry.
Time is modelled by explicit steps: updates spaced closer than
`debounceMs` are consecutive `setPersistentState` steps with no
`fireTimer` step in between, and the timer finally firing is one
`fireTimer` step. -/

/-- The state of one persistent container and the storage entry under its
key.  `pending` is the single timer slot holding the value the armed
debounced write would store; `writeLog` records every `storage.setItem`
performed under the key. -/
structure PState (V : Type) where
  current : V
  pending : Option V
  initialized : Bool
  storageAvail : Bool
  stored : Option String
  writeLog : List String

/-- Embeds `saveToStorage`: with no usable storage it returns at once;
otherwise any previously pending write timer is cancelled (`clearTimeout`)
and a new one is armed (`setTimeout`) carrying the given value. -/
def saveToStorage {V : Type} (s : PState V) (value : V) : PState V :=
  if s.storageAvail then { s with pending := some value } else s

/-- Embeds `setPersistentState` with a functional update: the in-memory
state is replaced immediately; past the initial render the new value is
handed to `saveToStorage`. -/
def setPersistentState {V : Type} (f : V → V) (s : PState V) : PState V :=
  let nextState := f s.current
  let s2 := { s with current := nextState }
  if s2.initialized then saveToStorage s2 nextState else s2

/-- The armed debounce timer firing: the serialized pending value is
written to the storage entry (`storage.setItem(key, JSON.stringify(v))`)
and the slot empties; with no pending write, nothing happens. -/
def fireTimer {V : Type} (stringify : V → String) (s : PState V) : PState V :=
  match s.pending with
  | none => s
  | some v =>
      { s with pending := none, stored := some (stringify v),
               writeLog := s.writeLog ++ [stringify v] }

/-- Embeds `clearStoredValue`: with no usable storage it returns at once;
otherwise any pending write timer is cancelled and the storage entry is
removed. -/
def clearStoredValue {V : Type} (s : PState V) : PState V :=
  if s.storageAvail then { s with pending := none, stored := none } else s

/-- A burst of `setPersistentState` calls with no timer event in between
(all spaced less than `debounceMs` apart). -/
def applyUpdates {V : Type} (fs : List (V → V)) (s : PState V) : PState V :=
  fs.foldl (fun st f => setPersistentState f st) s

/-- Embeds the spread merge of a parsed stored value over the default
shape performed at initial load and on a storage event: the default's
fields in their order, each overridden by the parsed value when it has the
same name, followed by the parsed value's remaining fields in their
order. -/
def spreadMerge {Val : Type} (defaultValue parsed : List (String × Val)) :
    List (String × Val) :=
  defaultValue.map (fun p =>
    match List.lookup p.1 parsed with
    | some w => (p.1, w)
    | none => p) ++
  parsed.filter (fun p => (List.lookup p.1 defaultValue).isNone)

/-! ### Domain adapter (`src: useCalculatorState.ts`) -/

/-- JSON string escaping of one character (quotes and backslashes; the
keys used by this application contain neither). -/
def jsonEscapeChar (c : Char) : Str :=
  if c = '"' then ['\x5c', '"'] else if c = '\x5c' then ['\x5c', '\x5c'] else [c]

/-- One `"key":value` member of a stringified flat record of integral
numeric fields. -/
def jsonField (p : String × Int) : Str :=
  '"' :: (p.1.data.flatMap jsonEscapeChar) ++ ('"' :: ':' :: intToStr p.2)

/-- `JSON.stringify` of a flat record of integral numeric fields, in the
record's field order. -/
def jsonStringify (o : List (String × Int)) : Str :=
  '\x7b' :: List.intercalate [','] (o.map jsonField) ++ ['\x7d']

/-- Embeds `hasUnsavedChanges` from `useCalculatorState`:
`JSON.stringify(values) !== JSON.stringify(defaultValues)`. -/
def hasUnsavedChanges (values defaultValues : List (String × Int)) : Bool :=
  !(jsonStringify values == jsonStringify defaultValues)

/-! ### Export aggregation (`src: exportData.ts`) -/

/-- The calculator's input record (`CalculatorValues`). -/
structure CalculatorValues where
  localCustomers : JsNum
  touristCustomers : JsNum
  localFrequency : JsNum
  touristFrequency : JsNum
  targetDishes : JsNum
  avgGroupSize : JsNum
  dishesPerPerson : JsNum
  walkInDaily : JsNum
  weekdayShowUp : JsNum
  weekendShowUp : JsNum
  noShowRate : JsNum
deriving DecidableEq

/-- The computed-metrics record (`CalculationResults` from
`calculations.ts`); the fields the export pipeline reads. -/
structure CalculationResults where
  localActiveBase : JsNum
  touristActiveBase : JsNum
  localCapacity : JsNum
  touristCapacity : JsNum
  walkInCapacity : JsNum
  totalCapacity : JsNum
  groupsPerDay : JsNum
  gap : JsNum
  utilizationRate : JsNum
deriving DecidableEq

/-- The record returned by `createAnalysisSummary`. -/
structure AnalysisSummary where
  status : Str
  recommendation : Str
  utilizationRate : JsNum
  capacityStatus : Str
deriving DecidableEq

/-- Status text for a non-negative gap ("exceeds target"). -/
def statusExceeds : Str := "เกินเป้าหมาย".data

/-- Status text for a negative gap ("below target"). -/
def statusBelow : Str := "ต่ำกว่าเป้าหมาย".data

/-- Capacity status for a non-negative gap ("sufficient"). -/
def capacitySufficient : Str := "เพียงพอ".data

/-- Capacity status for a negative gap ("insufficient"). -/
def capacityInsufficient : Str := "ไม่เพียงพอ".data

/-- The large-surplus recommendation (expand marketing or the target). -/
def recLargeSurplus : Str :=
  "มีศักยภาพรองรับลูกค้าเพิ่มเติมได้มาก ควรขยายการตลาดหรือเพิ่มเป้าหมาย".data

/-- The moderate-surplus recommendation (capacity adequate with buffer). -/
def recModerateSurplus : Str :=
  "กำลังการผลิตเหมาะสม มีส่วนเผื่อในการรองรับลูกค้าเพิ่มเติม".data

/-- The urgent-shortfall recommendation. -/
def recUrgentShortfall : Str :=
  "ต้องเพิ่มจำนวนลูกค้าหรือปรับปรุงประสิทธิภาพการบริการอย่างเร่งด่วน".data

/-- The moderate-shortfall recommendation. -/
def recModerateShortfall : Str :=
  "ควรเพิ่มจำนวนลูกค้าหรือปรับปรุงอัตราการมาใช้บริการ".data

/-- Embeds `createAnalysisSummary`: the utilization rate is
`Math.min(100, target / totalCapacity * 100)` rounded at the end, and the
status / capacity status / recommendation branch on the gap as in the
source. -/
def createAnalysisSummary (values : CalculatorValues)
    (results : CalculationResults) : AnalysisSummary :=
  let utilizationRate :=
    jsMin (.fin 100) (jsMul (jsDiv values.targetDishes results.totalCapacity) (.fin 100))
  if jsGe results.gap (.fin 0) then
    if jsGt results.gap (jsMul values.targetDishes (.fin 0.2)) then
      { status := statusExceeds, capacityStatus := capacitySufficient,
        recommendation := recLargeSurplus, utilizationRate := jsRound utilizationRate }
    else
      { status := statusExceeds, capacityStatus := capacitySufficient,
        recommendation := recModerateSurplus, utilizationRate := jsRound utilizationRate }
  else
    if jsGt (jsAbs results.gap) (jsMul values.targetDishes (.fin 0.1)) then
      { status := statusBelow, capacityStatus := capacityInsufficient,
        recommendation := recUrgentShortfall, utilizationRate := jsRound utilizationRate }
    else
      { status := statusBelow, capacityStatus := capacityInsufficient,
        recommendation := recModerateShortfall, utilizationRate := jsRound utilizationRate }

/-- The export metadata (`ExportMetadata`); its values are wall-clock
texts captured at export time. -/
structure ExportMetadata where
  exportDate : Str
  exportTime : Str
  appName : Str
  version : Str
  timezone : Str
deriving DecidableEq

/-- The full export record (`FullExportData`). -/
structure FullExportData where
  metadata : ExportMetadata
  inputValues : CalculatorValues
  calculatedResults : CalculationResults
  analysis : AnalysisSummary
deriving DecidableEq

/-- Embeds `aggregateExportData`; the wall-clock metadata
(`createExportMetadata`) enters as a parameter. -/
def aggregateExportData (metadata : ExportMetadata) (values : CalculatorValues)
    (results : CalculationResults) : FullExportData :=
  { metadata := metadata, inputValues := values, calculatedResults := results,
    analysis := createAnalysisSummary values results }

/-- Embeds `convertToCSVSections`: the five fixed sections (metadata,
inputs, computed results, analysis summary, capacity breakdown) with their
Thai labels; the three percentage-of-total cells of the breakdown section
fall back to the text `0%` unless the total capacity is positive. -/
def convertToCSVSections (exportData : FullExportData) : List CsvSection :=
  let totalCapacity := exportData.calculatedResults.totalCapacity
  [ { title := "🏪 รายงานการวิเคราะห์การหมุนเวียนลูกค้า".data,
      headers := ["รายการ".data, "ค่า".data],
      rows := [
        [("รายการ".data, .str "วันที่ส่งออกข้อมูล".data),
         ("ค่า".data, .str exportData.metadata.exportDate)],
        [("รายการ".data, .str "เวลาที่ส่งออกข้อมูล".data),
         ("ค่า".data, .str exportData.metadata.exportTime)],
        [("รายการ".data, .str "ชื่อแอปพลิเคชัน".data),
         ("ค่า".data, .str exportData.metadata.appName)],
        [("รายการ".data, .str "เวอร์ชัน".data),
         ("ค่า".data, .str exportData.metadata.version)],
        [("รายการ".data, .str "เขตเวลา".data),
         ("ค่า".data, .str exportData.metadata.timezone)]] },
    { title := "📊 ข้อมูลนำเข้า (Input Parameters)".data,
      headers := ["พารามิเตอร์".data, "ค่า".data, "หน่วย".data, "คำอธิบาย".data],
      rows := [
        [("พารามิเตอร์".data, .str "จำนวนลูกค้าท้องถิ่น".data),
         ("ค่า".data, .num exportData.inputValues.localCustomers),
         ("หน่วย".data, .str "คน".data),
         ("คำอธิบาย".data, .str "จำนวนลูกค้าประจำในพื้นที่".data)],
        [("พารามิเตอร์".data, .str "จำนวนลูกค้านักท่องเที่ยว".data),
         ("ค่า".data, .num exportData.inputValues.touristCustomers),
         ("หน่วย".data, .str "คน".data),
         ("คำอธิบาย".data, .str "จำนวนลูกค้านักท่องเที่ยวที่คาดว่าจะมา".data)],
        [("พารามิเตอร์".data, .str "ความถี่การมา (ท้องถิ่น)".data),
         ("ค่า".data, .num exportData.inputValues.localFrequency),
         ("หน่วย".data, .str "วัน".data),
         ("คำอธิบาย".data, .str "จำนวนวันที่ลูกค้าท้องถิ่นกลับมาใหม่ (τ)".data)],
        [("พารามิเตอร์".data, .str "ความถี่การมา (นักท่องเที่ยว)".data),
         ("ค่า".data, .num exportData.inputValues.touristFrequency),
         ("หน่วย".data, .str "วัน".data),
         ("คำอธิบาย".data, .str "จำนวนวันที่นักท่องเที่ยวกลับมาใหม่ (τ)".data)],
        [("พารามิเตอร์".data, .str "Target จานต่อวัน".data),
         ("ค่า".data, .num exportData.inputValues.targetDishes),
         ("หน่วย".data, .str "จาน".data),
         ("คำอธิบาย".data, .str "เป้าหมายจำนวนจานที่ต้องการขายต่อวัน".data)],
        [("พารามิเตอร์".data, .str "ขนาดกลุ่มเฉลี่ย".data),
         ("ค่า".data, .num exportData.inputValues.avgGroupSize),
         ("หน่วย".data, .str "คน".data),
         ("คำอธิบาย".data, .str "จำนวนคนเฉลี่ยต่อโต๊ะ".data)],
        [("พารามิเตอร์".data, .str "จานต่อคนต่อครั้ง (μ)".data),
         ("ค่า".data, .num exportData.inputValues.dishesPerPerson),
         ("หน่วย".data, .str "จาน".data),
         ("คำอธิบาย".data, .str "จำนวนจานเฉลี่ยที่ลูกค้าหนึ่งคนสั่งต่อครั้ง (μ)".data)],
        [("พารามิเตอร์".data, .str "Walk-in ต่อวัน".data),
         ("ค่า".data, .num exportData.inputValues.walkInDaily),
         ("หน่วย".data, .str "คน".data),
         ("คำอธิบาย".data, .str "จำนวนลูกค้า Walk-in เฉลี่ยต่อวัน".data)],
        [("พารามิเตอร์".data, .str "โอกาสมาวันธรรมดา".data),
         ("ค่า".data, .num exportData.inputValues.weekdayShowUp),
         ("หน่วย".data, .str "%".data),
         ("คำอธิบาย".data, .str "โอกาสที่ลูกค้าจะมาในวันธรรมดา".data)],
        [("พารามิเตอร์".data, .str "โอกาสมาวันหยุด".data),
         ("ค่า".data, .num exportData.inputValues.weekendShowUp),
         ("หน่วย".data, .str "%".data),
         ("คำอธิบาย".data, .str "โอกาสที่ลูกค้าจะมาในวันหยุด".data)],
        [("พารามิเตอร์".data, .str "อัตรา No-show".data),
         ("ค่า".data, .num exportData.inputValues.noShowRate),
         ("หน่วย".data, .str "%".data),
         ("คำอธิบาย".data, .str "เปอร์เซ็นต์ลูกค้าที่จองแล้วไม่มา".data)]] },
    { title := "🧮 ผลการคำนวณ (Calculated Results)".data,
      headers := ["ตัวชี้วัด".data, "ค่า".data, "หน่วย".data, "สูตรการคำนวณ".data],
      rows := [
        [("ตัวชี้วัด".data, .str "Active Base (ท้องถิ่น)".data),
         ("ค่า".data, .num exportData.calculatedResults.localActiveBase),
         ("หน่วย".data, .str "คน".data),
         ("สูตรการคำนวณ".data, .str "A = D × τ / μ".data)],
        [("ตัวชี้วัด".data, .str "Active Base (นักท่องเที่ยว)".data),
         ("ค่า".data, .num exportData.calculatedResults.touristActiveBase),
         ("หน่วย".data, .str "คน".data),
         ("สูตรการคำนวณ".data, .str "A = D × τ / μ".data)],
        [("ตัวชี้วัด".data, .str "Capacity (ท้องถิ่น)".data),
         ("ค่า".data, .num exportData.calculatedResults.localCapacity),
         ("หน่วย".data, .str "จาน/วัน".data),
         ("สูตรการคำนวณ".data, .str "C = N × μ × S / τ".data)],
        [("ตัวชี้วัด".data, .str "Capacity (นักท่องเที่ยว)".data),
         ("ค่า".data, .num exportData.calculatedResults.touristCapacity),
         ("หน่วย".data, .str "จาน/วัน".data),
         ("สูตรการคำนวณ".data, .str "C = N × μ × S / τ".data)],
        [("ตัวชี้วัด".data, .str "Capacity (Walk-in)".data),
         ("ค่า".data, .num exportData.calculatedResults.walkInCapacity),
         ("หน่วย".data, .str "จาน/วัน".data),
         ("สูตรการคำนวณ".data, .str "C = W × μ × S".data)],
        [("ตัวชี้วัด".data, .str "Total Capacity".data),
         ("ค่า".data, .num exportData.calculatedResults.totalCapacity),
         ("หน่วย".data, .str "จาน/วัน".data),
         ("สูตรการคำนวณ".data, .str "TC = LC + TouC + WC".data)],
        [("ตัวชี้วัด".data, .str "Groups ต่อวัน".data),
         ("ค่า".data, .num (toFixed1Num exportData.calculatedResults.groupsPerDay)),
         ("หน่วย".data, .str "กลุ่ม".data),
         ("สูตรการคำนวณ".data, .str "G = Total Customers / Group Size".data)],
        [("ตัวชี้วัด".data, .str "Gap (เกิน/ขาด)".data),
         ("ค่า".data, .num exportData.calculatedResults.gap),
         ("หน่วย".data, .str "จาน".data),
         ("สูตรการคำนวณ".data, .str "Gap = Total Capacity - Target".data)],
        [("ตัวชี้วัด".data, .str "Utilization Rate".data),
         ("ค่า".data, .num exportData.calculatedResults.utilizationRate),
         ("หน่วย".data, .str "%".data),
         ("สูตรการคำนวณ".data, .str "UR = (Target / Total Capacity) × 100".data)]] },
    { title := "📈 สรุปการวิเคราะห์ (Analysis Summary)".data,
      headers := ["หัวข้อ".data, "ผลลัพธ์".data],
      rows := [
        [("หัวข้อ".data, .str "สถานะปัจจุบัน".data),
         ("ผลลัพธ์".data, .str exportData.analysis.status)],
        [("หัวข้อ".data, .str "สถานะกำลังการผลิต".data),
         ("ผลลัพธ์".data, .str exportData.analysis.capacityStatus)],
        [("หัวข้อ".data, .str "อัตราการใช้กำลังการผลิต".data),
         ("ผลลัพธ์".data, .str (jsNumToStr exportData.analysis.utilizationRate ++ "%".data))],
        [("หัวข้อ".data, .str "คำแนะนำ".data),
         ("ผลลัพธ์".data, .str exportData.analysis.recommendation)]] },
    { title := "🔍 รายละเอียด Capacity (Capacity Breakdown)".data,
      headers := ["ประเภทลูกค้า".data, "Capacity (จาน/วัน)".data,
                  "% ของ Total Capacity".data, "สัดส่วนที่แนะนำ".data],
      rows := [
        [("ประเภทลูกค้า".data, .str "ลูกค้าท้องถิ่น".data),
         ("Capacity (จาน/วัน)".data, .num exportData.calculatedResults.localCapacity),
         ("% ของ Total Capacity".data, .str
            (if jsGt totalCapacity (.fin 0) then
              toFixed1 (jsMul (jsDiv exportData.calculatedResults.localCapacity totalCapacity) (.fin 100)) ++ "%".data
            else "0%".data)),
         ("สัดส่วนที่แนะนำ".data, .str "60-70%".data)],
        [("ประเภทลูกค้า".data, .str "นักท่องเที่ยว".data),
         ("Capacity (จาน/วัน)".data, .num exportData.calculatedResults.touristCapacity),
         ("% ของ Total Capacity".data, .str
            (if jsGt totalCapacity (.fin 0) then
              toFixed1 (jsMul (jsDiv exportData.calculatedResults.touristCapacity totalCapacity) (.fin 100)) ++ "%".data
            else "0%".data)),
         ("สัดส่วนที่แนะนำ".data, .str "20-30%".data)],
        [("ประเภทลูกค้า".data, .str "Walk-in".data),
         ("Capacity (จาน/วัน)".data, .num exportData.calculatedResults.walkInCapacity),
         ("% ของ Total Capacity".data, .str
            (if jsGt totalCapacity (.fin 0) then
              toFixed1 (jsMul (jsDiv exportData.calculatedResults.walkInCapacity totalCapacity) (.fin 100)) ++ "%".data
            else "0%".data)),
         ("สัดส่วนที่แนะนำ".data, .str "10-15%".data)]] } ]

theorem digitCharOf_inj {d e : Nat} (hd : d < 10) (he : e < 10)
    (h : digitCharOf d = digitCharOf e) : d = e := by
  interval_cases d <;> interval_cases e <;> simp_all [digitCharOf]

theorem digitCharOf_isDigit {d : Nat} (hd : d < 10) :
    (digitCharOf d).isDigit = true := by
  interval_cases d <;> decide

/-- With enough fuel, the digit loop produces exactly the base-10 digits of
`n` (most significant first). -/
theorem natToStrAux_eq_digits :
    ∀ n fuel, n ≤ fuel → natToStrAux fuel n = ((Nat.digits 10 n).map digitCharOf).reverse := by
  intro n
  induction n using Nat.strong_induction_on with
  | _ n ih =>
    intro fuel hle
    match fuel with
    | 0 =>
      have : n = 0 := Nat.le_zero.mp hle
      subst this
      simp [natToStrAux]
    | f + 1 =>
      by_cases hn : n = 0
      · subst hn; simp [natToStrAux]
      · have hpos : 0 < n := Nat.pos_of_ne_zero hn
        have hdiv : n / 10 < n := Nat.div_lt_self hpos (by norm_num)
        have hfuel : n / 10 ≤ f := by omega
        rw [natToStrAux, if_neg hn, ih (n / 10) hdiv f hfuel,
          Nat.digits_def' (by norm_num : 1 < 10) hpos]
        simp

theorem natToStr_eq_digits {n : Nat} (hn : n ≠ 0) :
    natToStr n = ((Nat.digits 10 n).map digitCharOf).reverse := by
  rw [natToStr, if_neg hn]
  exact natToStrAux_eq_digits n (n + 1) (Nat.le_succ n)

/-- Helper: mapping `digitCharOf` over lists of digits (< 10) is injective. -/
theorem map_digitCharOf_inj :
    ∀ l₁ l₂ : List Nat, (∀ d ∈ l₁, d < 10) → (∀ d ∈ l₂, d < 10) →
      l₁.map digitCharOf = l₂.map digitCharOf → l₁ = l₂ := by
  intro l₁
  induction l₁ with
  | nil => intro l₂ _ _ h; cases l₂ <;> simp_all
  | cons a t ih =>
    intro l₂ h₁ h₂ h
    cases l₂ with
    | nil => simp_all
    | cons b t₂ =>
      simp only [List.map_cons, List.cons.injEq] at h
      have ha : a < 10 := h₁ a (by simp)
      have hb : b < 10 := h₂ b (by simp)
      have : a = b := digitCharOf_inj ha hb h.1
      subst this
      have := ih t₂ (fun d hd => h₁ d (by simp [hd])) (fun d hd => h₂ d (by simp [hd])) h.2
      simp [this]

/-- The decimal numeral determines the natural number. -/
theorem natToStr_inj {m n : Nat} (h : natToStr m = natToStr n) : m = n := by
  have key : ∀ k : Nat, k ≠ 0 → natToStr k ≠ ['0'] := by
    intro k hk hcontra
    rw [natToStr_eq_digits hk] at hcontra
    have hmap : (Nat.digits 10 k).map digitCharOf = ['0'] := by
      have := congrArg List.reverse hcontra
      simpa using this
    have hdig : Nat.digits 10 k = [0] := by
      have h10 : (0 : Nat) < 10 := by norm_num
      have := map_digitCharOf_inj (Nat.digits 10 k) [0]
        (fun d hd => Nat.digits_lt_base (by norm_num) hd)
        (by intro d hd; simp at hd; omega) (by simpa [digitCharOf] using hmap)
      exact this
    have : k = Nat.ofDigits 10 (Nat.digits 10 k) := (Nat.ofDigits_digits 10 k).symm
    rw [hdig] at this
    simp [Nat.ofDigits] at this
    exact hk this
  by_cases hm : m = 0
  · by_cases hn : n = 0
    · omega
    · exfalso
      subst hm
      exact key n hn (by simpa [natToStr] using h.symm)
  · by_cases hn : n = 0
    · exfalso
      subst hn
      exact key m hm (by simpa [natToStr] using h)
    · rw [natToStr_eq_digits hm, natToStr_eq_digits hn] at h
      have hmap := List.reverse_injective h
      have hdig := map_digitCharOf_inj (Nat.digits 10 m) (Nat.digits 10 n)
        (fun d hd => Nat.digits_lt_base (by norm_num) hd)
        (fun d hd => Nat.digits_lt_base (by norm_num) hd) hmap
      calc m = Nat.ofDigits 10 (Nat.digits 10 m) := (Nat.ofDigits_digits 10 m).symm
        _ = Nat.ofDigits 10 (Nat.digits 10 n) := by rw [hdig]
        _ = n := Nat.ofDigits_digits 10 n

/-- Every character of a natural numeral is a decimal digit. -/
theorem natToStr_all_digit {n : Nat} : ∀ c ∈ natToStr n, c.isDigit = true := by
  by_cases hn : n = 0
  · subst hn; intro c hc; simp [natToStr] at hc; subst hc; decide
  · rw [natToStr_eq_digits hn]
    intro c hc
    simp only [List.mem_reverse, List.mem_map] at hc
    obtain ⟨d, hd, rfl⟩ := hc
    exact digitCharOf_isDigit (Nat.digits_lt_base (by norm_num) hd)

theorem natToStr_ne_nil {n : Nat} : natToStr n ≠ [] := by
  by_cases hn : n = 0
  · subst hn; simp [natToStr]
  · rw [natToStr_eq_digits hn]
    simp [Nat.digits_ne_nil_iff_ne_zero, hn]

/-- The integer numeral determines the integer. -/
theorem intToStr_inj {i j : Int} (h : intToStr i = intToStr j) : i = j := by
  have hminus : ∀ n : Nat, '-' ∉ natToStr n := by
    intro n hmem
    have := natToStr_all_digit '-' hmem
    simp [Char.isDigit] at this
  unfold intToStr at h
  split at h <;> split at h
  · next hi hj =>
    simp only [List.cons.injEq] at h
    have := natToStr_inj h.2
    omega
  · next hi hj =>
    exfalso
    rcases hn : natToStr j.natAbs with _ | ⟨c, t⟩
    · exact natToStr_ne_nil hn
    · rw [hn] at h
      have : c = '-' := by simpa using (congrArg (fun l => l.headD ' ') h).symm
      exact hminus j.natAbs (by rw [hn, ← this]; simp)
  · next hi hj =>
    exfalso
    rcases hn : natToStr i.natAbs with _ | ⟨c, t⟩
    · exact natToStr_ne_nil hn
    · rw [hn] at h
      have : c = '-' := by simpa using congrArg (fun l => l.headD ' ') h
      exact hminus i.natAbs (by rw [hn, ← this]; simp)
  · next hi hj =>
    have := natToStr_inj h
    omega

/-- Every character of an integer numeral is a digit or the minus sign. -/
theorem intToStr_numChar {i : Int} :
    ∀ c ∈ intToStr i, (c.isDigit || c == '-') = true := by
  intro c hc
  unfold intToStr at hc
  split at hc
  · rcases List.mem_cons.mp hc with rfl | hc'
    · decide
    · simp [natToStr_all_digit c hc']
  · simp [natToStr_all_digit c hc]


/-! ### CSV escaping round-trip (claim C3) -/

/-- Unquoting steps over a non-quote character. -/
theorem unescapeQuoted_cons_ne {c : Char} (rest : Str) (hc : c ≠ '"') :
    unescapeQuoted (c :: rest) = c :: unescapeQuoted rest := by
  conv_lhs => rw [unescapeQuoted.eq_def]
  simp [hc]

/-- Unquoting the body of a quoted cell undoes quote doubling: reading the
escaped text up to the closing quote restores the original text. -/
theorem unescape_escape (s : Str) : unescapeQuoted (escapeQuotes s ++ ['"']) = s := by
  induction s with
  | nil =>
    show unescapeQuoted ['"'] = []
    rw [unescapeQuoted.eq_def]
    simp
  | cons c t ih =>
    by_cases hc : c = '"'
    · subst hc
      have h1 : escapeQuotes ('"' :: t) = '"' :: '"' :: escapeQuotes t := by
        simp [escapeQuotes]
      rw [h1, List.cons_append, List.cons_append, unescapeQuoted.eq_def]
      simp [ih]
    · have hbeq : (c == '"') = false := by simp [hc]
      have h1 : escapeQuotes (c :: t) = c :: escapeQuotes t := by
        simp [escapeQuotes, hbeq, hc]
      rw [h1, List.cons_append, unescapeQuoted_cons_ne _ hc, ih]

/-- Claim C3: `formatCsvValue` maps null and undefined to the empty text;
for a text containing a separator, a quote or a line break it wraps the
text in quotes and doubles every internal quote, and parsing that output
by the standard CSV unquoting rule yields back the original text
exactly. -/
theorem formatCsvValue_escaping (s : Str) :
    formatCsvValue .nullV = [] ∧ formatCsvValue .undef = [] ∧
    (needsQuote s = true →
      formatCsvValue (.str s) = '"' :: escapeQuotes s ++ ['"'] ∧
      parseCsvCell (formatCsvValue (.str s)) = s) := by
  refine ⟨rfl, rfl, fun h => ?_⟩
  have hfmt : formatCsvValue (.str s) = '"' :: escapeQuotes s ++ ['"'] := by
    simp [formatCsvValue, stringOfCsvValue, h]
  refine ⟨hfmt, ?_⟩
  rw [hfmt]
  show unescapeQuoted (escapeQuotes s ++ ['"']) = s
  exact unescape_escape s

/-- Witness for claim C3 at the concrete text `a,"b`. -/
theorem formatCsvValue_escaping_witness :
    needsQuote "a,\"b".data = true ∧
    (formatCsvValue (.str "a,\"b".data) = '"' :: escapeQuotes "a,\"b".data ++ ['"'] ∧
     parseCsvCell (formatCsvValue (.str "a,\"b".data)) = "a,\"b".data) :=
  ⟨by decide, (formatCsvValue_escaping "a,\"b".data).2.2 (by decide)⟩

/-! ### Section serialization (claim C4) -/

/-- `intercalate` over a single block. -/
theorem intercalate_one {α : Type} (sep x : List α) : List.intercalate sep [x] = x := by
  simp [List.intercalate]

/-- `intercalate` unfolded at two or more blocks. -/
theorem intercalate_two {α : Type} (sep x y : List α) (ys : List (List α)) :
    List.intercalate sep (x :: y :: ys) = x ++ sep ++ List.intercalate sep (y :: ys) := by
  simp [List.intercalate, List.intersperse]

/-- The `forEach` accumulator of `sectionsToCSV`, started at position `k`
of a section list of total length `L`, appends exactly the blank-line
separated per-section blocks. -/
theorem sectionsToCSV_go (L : Nat) :
    ∀ (ss : List CsvSection) (k : Nat) (acc : List Str), k + ss.length = L →
      (List.enumFrom k ss).foldl
        (fun acc p =>
          let acc := if p.2.title ≠ [] then acc ++ [formatCsvValue (.str p.2.title)] ++ [[]] else acc
          let acc := if p.2.headers.length > 0 then
              acc ++ [List.intercalate [','] (p.2.headers.map (fun h => formatCsvValue (.str h)))]
            else acc
          let acc := acc ++ p.2.rows.map (fun row => rowToLine p.2.headers row)
          if p.1 < L - 1 then acc ++ [[]] else acc)
        acc
      = acc ++ List.intercalate [[]] (ss.map sectionLinesSpec) := by
  intro ss
  induction ss with
  | nil => intro k acc _; simp [List.intercalate]
  | cons s rest ih =>
    intro k acc h
    have hlen : k + 1 + rest.length = L := by
      simp only [List.length_cons] at h
      omega
    rw [show List.enumFrom k (s :: rest) = (k, s) :: List.enumFrom (k + 1) rest from rfl,
      List.foldl_cons, ih (k + 1) _ hlen, List.map_cons]
    cases rest with
    | nil =>
      have hk : ¬ (k < L - 1) := by simp at hlen; omega
      by_cases ht : s.title = [] <;> by_cases hh : s.headers.length > 0 <;>
        simp [sectionLinesSpec, ht, hh, hk, intercalate_one, List.intercalate,
          List.append_assoc]
    | cons s2 rest2 =>
      have hk : k < L - 1 := by simp at hlen; omega
      by_cases ht : s.title = [] <;> by_cases hh : s.headers.length > 0 <;>
        simp [sectionLinesSpec, ht, hh, hk, intercalate_two, List.append_assoc]

/-- Claim C4: `sectionsToCSV` emits, for each section in order, the escaped
title line followed by a blank line when a title is present, then the
escaped comma-joined header line when headers are non-empty, then one line
per row with cells in header order (or the record's own field order when
headers are empty), with a single blank line between consecutive sections
and none after the last, everything joined by single newlines with no
trailing newline — i.e. it coincides with the specification-side
`sectionsToTextSpec`. -/
theorem sectionsToCSV_eq_spec (sections : List CsvSection) :
    sectionsToCSV sections = sectionsToTextSpec sections := by
  show List.intercalate ['\n']
      ((List.enumFrom 0 sections).foldl
        (fun acc p =>
          let acc := if p.2.title ≠ [] then acc ++ [formatCsvValue (.str p.2.title)] ++ [[]] else acc
          let acc := if p.2.headers.length > 0 then
              acc ++ [List.intercalate [','] (p.2.headers.map (fun h => formatCsvValue (.str h)))]
            else acc
          let acc := acc ++ p.2.rows.map (fun row => rowToLine p.2.headers row)
          if p.1 < sections.length - 1 then acc ++ [[]] else acc)
        [])
      = sectionsToTextSpec sections
  rw [sectionsToCSV_go sections.length sections 0 [] (by simp)]
  simp [sectionsToTextSpec]

/-! ### Shape merge (claim C2) -/

/-- Looking a key up in the override-mapped default: the default's keys are
unchanged, its values replaced by the parsed value's where present. -/
theorem lookup_map_override {Val : Type} (S : List (String × Val)) :
    ∀ (D : List (String × Val)) (k : String),
      List.lookup k (D.map (fun p =>
        match List.lookup p.1 S with
        | some w => (p.1, w)
        | none => p)) =
      (List.lookup k D).map (fun v => (List.lookup k S).getD v) := by
  intro D
  induction D with
  | nil => intro k; simp
  | cons p D ih =>
    intro k
    obtain ⟨k1, v1⟩ := p
    by_cases heq : k = k1
    · subst heq
      cases hS : List.lookup k S with
      | none => simp [List.lookup, hS]
      | some w => simp [List.lookup, hS]
    · have hbeq : (k == k1) = false := by simp [heq]
      cases hS : List.lookup k1 S with
      | none => simp [List.lookup, hS, hbeq, ih]
      | some w => simp [List.lookup, hS, hbeq, ih]

/-- `lookup` over an append searches the first list first. -/
theorem lookup_append {Val : Type} (k : String) :
    ∀ (l1 l2 : List (String × Val)),
      List.lookup k (l1 ++ l2) =
        match List.lookup k l1 with
        | some v => some v
        | none => List.lookup k l2 := by
  intro l1
  induction l1 with
  | nil => intro l2; simp
  | cons p l1 ih =>
    intro l2
    obtain ⟨k1, v1⟩ := p
    by_cases heq : k = k1
    · subst heq; simp [List.lookup]
    · have hbeq : (k == k1) = false := by simp [heq]
      simp [List.lookup, hbeq, ih]

/-- `lookup` through a filter whose predicate only reads the key. -/
theorem lookup_filter_key {Val : Type} (pk : String → Bool) (k : String) :
    ∀ S : List (String × Val),
      List.lookup k (S.filter (fun p => pk p.1)) =
        (if pk k then List.lookup k S else none) := by
  intro S
  induction S with
  | nil => simp
  | cons p S ih =>
    obtain ⟨k1, v1⟩ := p
    by_cases heq : k = k1
    · subst heq
      by_cases hp : pk k <;> simp [List.lookup, hp, ih]
    · have hbeq : (k == k1) = false := by simp [heq]
      by_cases hp : pk k1 <;> simp [List.lookup, hbeq, hp, ih]

/-- Claim C2, amended: the spread merge performed at initial load and on a
storage event contains every field of the default `D` (with the parsed
value `S` overriding `D` on shared names), but unknown stored fields are
not dropped: every field of `S` absent from `D` also appears, appended
after `D`'s fields; a name is present exactly when it occurs in `D` or in
`S`. -/
theorem spreadMerge_spec {Val : Type} (D S : List (String × Val)) (k : String) :
    List.lookup k (spreadMerge D S) =
      (match List.lookup k S with
       | some w => some w
       | none => List.lookup k D) ∧
    (spreadMerge D S).map Prod.fst =
      D.map Prod.fst ++ (S.map Prod.fst).filter (fun key => (List.lookup key D).isNone) := by
  constructor
  · rw [spreadMerge, lookup_append, lookup_map_override,
      lookup_filter_key (fun key => (List.lookup key D).isNone)]
    cases hD : List.lookup k D with
    | none => cases hS : List.lookup k S <;> simp [hD, hS]
    | some v => cases hS : List.lookup k S <;> simp [hD, hS]
  · rw [spreadMerge, List.map_append]
    congr 1
    · rw [List.map_map]
      apply List.map_congr_left
      intro p _
      cases hS : List.lookup p.1 S <;> simp [hS]
    · rw [List.filter_map]
      rfl

/-- Claim C2, counterexample to the claim as stated: a stored field `b`
absent from the default shape appears in the merge result. -/
theorem spreadMerge_extra_field_counterexample :
    spreadMerge [("a", (1 : Int))] [("b", 2)] = [("a", 1), ("b", 2)] ∧
    List.lookup "b" (spreadMerge [("a", (1 : Int))] [("b", 2)]) = some 2 ∧
    List.lookup "b" [("a", (1 : Int))] = none := by
  refine ⟨by decide, by decide, by decide⟩

/-! ### hasUnsavedChanges (claim C8) -/

/-- Splitting an equation between two texts made of numeral characters
followed by a non-numeral delimiter: the numeral parts, the delimiters and
the remainders agree. -/
theorem numChar_split :
    ∀ (a b : Str) (x y : Char) (r s : Str),
      (∀ c ∈ a, (c.isDigit || c == '-') = true) →
      (∀ c ∈ b, (c.isDigit || c == '-') = true) →
      (x.isDigit || x == '-') = false →
      (y.isDigit || y == '-') = false →
      a ++ x :: r = b ++ y :: s →
      a = b ∧ x = y ∧ r = s := by
  intro a
  induction a with
  | nil =>
    intro b x y r s _ hb hx hy h
    cases b with
    | nil => simp_all
    | cons c bt =>
      exfalso
      simp only [List.nil_append, List.cons_append, List.cons.injEq] at h
      have hc := hb c (by simp)
      rw [← h.1, hx] at hc
      exact Bool.noConfusion hc
  | cons c at2 ih =>
    intro b x y r s ha hb hx hy h
    cases b with
    | nil =>
      exfalso
      simp only [List.cons_append, List.nil_append, List.cons.injEq] at h
      have hc := ha c (by simp)
      rw [h.1, hy] at hc
      exact Bool.noConfusion hc
    | cons d bt =>
      simp only [List.cons_append, List.cons.injEq] at h
      obtain ⟨rfl, h2⟩ := h
      have := ih bt x y r s (fun e he => ha e (by simp [he]))
        (fun e he => hb e (by simp [he])) hx hy h2
      simp_all

/-- The member list of a stringified record with fixed keys determines the
field values. -/
theorem jsonMembers_inj :
    ∀ (ks : List String) (vs1 vs2 : List Int),
      vs1.length = ks.length → vs2.length = ks.length →
      List.intercalate [','] ((ks.zip vs1).map jsonField) ++ ['\x7d'] =
        List.intercalate [','] ((ks.zip vs2).map jsonField) ++ ['\x7d'] →
      vs1 = vs2 := by
  intro ks
  induction ks with
  | nil =>
    intro vs1 vs2 h1 h2 _
    rw [List.length_eq_zero.mp h1, List.length_eq_zero.mp h2]
  | cons k kt ih =>
    intro vs1 vs2 h1 h2 h
    cases vs1 with
    | nil => simp at h1
    | cons v1 t1 =>
      cases vs2 with
      | nil => simp at h2
      | cons v2 t2 =>
        have hz1 : (k :: kt).zip (v1 :: t1) = (k, v1) :: kt.zip t1 := by simp
        have hz2 : (k :: kt).zip (v2 :: t2) = (k, v2) :: kt.zip t2 := by simp
        rw [hz1, hz2, List.map_cons, List.map_cons] at h
        have hl1 : t1.length = kt.length := by simpa using h1
        have hl2 : t2.length = kt.length := by simpa using h2
        cases kt with
        | nil =>
          have ht1 : t1 = [] := List.length_eq_zero.mp hl1
          have ht2 : t2 = [] := List.length_eq_zero.mp hl2
          subst ht1; subst ht2
          simp only [List.zip_nil_left, List.map_nil] at h
          rw [intercalate_one, intercalate_one] at h
          have hkey : ∀ v : Int, jsonField (k, v) ++ ['\x7d'] =
              ('"' :: k.data.flatMap jsonEscapeChar ++ ['"', ':']) ++
                (intToStr v ++ '\x7d' :: []) := by
            intro v; simp [jsonField]
          rw [hkey, hkey] at h
          have h2 := List.append_cancel_left h
          have hsp := numChar_split (intToStr v1) (intToStr v2) '\x7d' '\x7d' [] []
            intToStr_numChar intToStr_numChar (by decide) (by decide) h2
          rw [intToStr_inj hsp.1]
        | cons k2 kt2 =>
          cases t1 with
          | nil => simp at hl1
          | cons w1 u1 =>
            cases t2 with
            | nil => simp at hl2
            | cons w2 u2 =>
              have hz3 : (k2 :: kt2).zip (w1 :: u1) = (k2, w1) :: kt2.zip u1 := by simp
              have hz4 : (k2 :: kt2).zip (w2 :: u2) = (k2, w2) :: kt2.zip u2 := by simp
              rw [hz3, hz4, List.map_cons, List.map_cons,
                intercalate_two, intercalate_two] at h
              have hre : ∀ (v : Int) (rest : Str),
                  (jsonField (k, v) ++ [','] ++ rest) ++ ['\x7d'] =
                  ('"' :: k.data.flatMap jsonEscapeChar ++ ['"', ':']) ++
                    (intToStr v ++ ',' :: (rest ++ ['\x7d'])) := by
                intro v rest; simp [jsonField]
              rw [hre, hre] at h
              have h2 := List.append_cancel_left h
              have hsp := numChar_split (intToStr v1) (intToStr v2) ',' ',' _ _
                intToStr_numChar intToStr_numChar (by decide) (by decide) h2
              have hv := intToStr_inj hsp.1
              have hrest := hsp.2.2
              have ht := ih (w1 :: u1) (w2 :: u2) hl1 hl2 (by
                rw [hz3, hz4, List.map_cons, List.map_cons]
                exact hrest)
              rw [hv, ht]

/-- Claim C8, amended: `hasUnsavedChanges` compares the JSON texts of the
current and default records, which for records carrying the same fields in
the same order is exactly field-wise equality: it returns false iff every
field's value equals the default's, and true iff some field differs.  (By
the counterexample, the comparison is not order-independent.) -/
theorem hasUnsavedChanges_same_order (ks : List String) (vs1 vs2 : List Int)
    (h1 : vs1.length = ks.length) (h2 : vs2.length = ks.length) :
    (hasUnsavedChanges (ks.zip vs1) (ks.zip vs2) = false ↔ vs1 = vs2) ∧
    (hasUnsavedChanges (ks.zip vs1) (ks.zip vs2) = true ↔ vs1 ≠ vs2) := by
  have key : jsonStringify (ks.zip vs1) = jsonStringify (ks.zip vs2) ↔ vs1 = vs2 := by
    constructor
    · intro h
      apply jsonMembers_inj ks vs1 vs2 h1 h2
      simpa [jsonStringify] using h
    · intro h; rw [h]
  have hbool : hasUnsavedChanges (ks.zip vs1) (ks.zip vs2) = false ↔
      jsonStringify (ks.zip vs1) = jsonStringify (ks.zip vs2) := by
    simp [hasUnsavedChanges]
  constructor
  · rw [hbool, key]
  · constructor
    · intro htrue hvs
      have hfalse := hbool.mpr (key.mpr hvs)
      rw [htrue] at hfalse
      exact Bool.noConfusion hfalse
    · intro hvs
      cases hcase : hasUnsavedChanges (ks.zip vs1) (ks.zip vs2) with
      | true => rfl
      | false => exact absurd (key.mp (hbool.mp hcase)) hvs

/-- Witness for the amended claim C8 at two concrete same-order records. -/
theorem hasUnsavedChanges_same_order_witness :
    ([(1 : Int), 2].length = ["a", "b"].length) ∧
    ([(1 : Int), 3].length = ["a", "b"].length) ∧
    ((hasUnsavedChanges (["a", "b"].zip [(1 : Int), 2]) (["a", "b"].zip [(1 : Int), 3]) = false ↔
        [(1 : Int), 2] = [(1 : Int), 3]) ∧
     (hasUnsavedChanges (["a", "b"].zip [(1 : Int), 2]) (["a", "b"].zip [(1 : Int), 3]) = true ↔
        [(1 : Int), 2] ≠ [(1 : Int), 3])) :=
  ⟨by decide, by decide,
    hasUnsavedChanges_same_order ["a", "b"] [1, 2] [1, 3] (by decide) (by decide)⟩

/-- Claim C8, counterexample to order-independence: two records with the
same two fields carrying equal values, differing only in field order, are
reported as differing (`hasUnsavedChanges` is a JSON-text comparison, not
an order-independent structural one). -/
theorem hasUnsavedChanges_order_counterexample :
    hasUnsavedChanges [("a", (1 : Int)), ("b", 2)] [("b", (2 : Int)), ("a", 1)] = true ∧
    List.lookup "a" [("a", (1 : Int)), ("b", 2)] =
      List.lookup "a" [("b", (2 : Int)), ("a", 1)] ∧
    List.lookup "b" [("a", (1 : Int)), ("b", 2)] =
      List.lookup "b" [("b", (2 : Int)), ("a", 1)] ∧
    List.Perm ([("a", (1 : Int)), ("b", 2)].map Prod.fst)
      ([("b", (2 : Int)), ("a", 1)].map Prod.fst) := by
  refine ⟨by decide, by decide, by decide, by decide⟩

/-! ### Debounce coalescing (claims C1, C10) -/

/-- The effect of a burst of updates on an initialized container with
usable storage: the in-memory state folds all updates, nothing is written
yet, and the single timer slot holds exactly the last value (when the
burst is non-empty) — each update cancelled its predecessor's pending
write. -/
theorem applyUpdates_spec {V : Type} (fs : List (V → V)) :
    ∀ s : PState V, s.initialized = true → s.storageAvail = true →
      (applyUpdates fs s).current = fs.foldl (fun v f => f v) s.current ∧
      (applyUpdates fs s).initialized = true ∧
      (applyUpdates fs s).storageAvail = true ∧
      (applyUpdates fs s).writeLog = s.writeLog ∧
      (applyUpdates fs s).stored = s.stored ∧
      (applyUpdates fs s).pending =
        (if fs.isEmpty then s.pending else some ((applyUpdates fs s).current)) := by
  induction fs with
  | nil => intro s hi ha; simp [applyUpdates, hi, ha]
  | cons f ft ih =>
    intro s hi ha
    have hstep : setPersistentState f s =
        { s with current := f s.current, pending := some (f s.current) } := by
      simp [setPersistentState, saveToStorage, hi, ha]
    have happ : applyUpdates (f :: ft) s = applyUpdates ft (setPersistentState f s) := by
      simp [applyUpdates]
    rw [happ, hstep]
    have hrec := ih { s with current := f s.current, pending := some (f s.current) } hi ha
    refine ⟨?_, hrec.2.1, hrec.2.2.1, hrec.2.2.2.1, hrec.2.2.2.2.1, ?_⟩
    · rw [hrec.1]; simp
    · rw [hrec.2.2.2.2.2]
      cases hft : ft.isEmpty with
      | true =>
        have hnil : ft = [] := by cases ft <;> simp_all
        subst hnil
        simp [applyUpdates]
      | false =>
        simp [hft]

/-- Firing the timer on a container with an armed write: the slot empties,
the serialized value lands in storage and is appended to the write log. -/
theorem fireTimer_some {V : Type} (stringify : V → String) (s : PState V) (v : V)
    (hp : s.pending = some v) :
    (fireTimer stringify s).pending = none ∧
    (fireTimer stringify s).stored = some (stringify v) ∧
    (fireTimer stringify s).writeLog = s.writeLog ++ [stringify v] ∧
    (fireTimer stringify s).current = s.current := by
  obtain ⟨c, p, i, a, st, w⟩ := s
  simp only at hp
  subst hp
  simp [fireTimer]

/-- Claim C1: for a burst of updates issued after initialization with
usable storage and spaced inside the debounce window, the in-memory state
reflects every update immediately (each prefix of the burst), at most one
write is pending and it carries the last update's value, no write has
happened during the burst, and when the timer finally fires exactly one
storage write occurs, whose written value is the serialization of the
value produced by the last update. -/
theorem debounce_coalescing {V : Type} (stringify : V → String) (fs : List (V → V))
    (s : PState V) (hi : s.initialized = true) (ha : s.storageAvail = true)
    (hfs : fs ≠ []) :
    (applyUpdates fs s).current = fs.foldl (fun v f => f v) s.current ∧
    (∀ gs, gs <+: fs →
      (applyUpdates gs s).current = gs.foldl (fun v f => f v) s.current) ∧
    (applyUpdates fs s).pending = some ((applyUpdates fs s).current) ∧
    (applyUpdates fs s).writeLog = s.writeLog ∧
    (fireTimer stringify (applyUpdates fs s)).writeLog =
      s.writeLog ++ [stringify ((applyUpdates fs s).current)] ∧
    (fireTimer stringify (applyUpdates fs s)).stored =
      some (stringify ((applyUpdates fs s).current)) ∧
    (fireTimer stringify (applyUpdates fs s)).pending = none := by
  have h := applyUpdates_spec fs s hi ha
  have hne : fs.isEmpty = false := by cases fs <;> simp_all
  have hpend : (applyUpdates fs s).pending = some ((applyUpdates fs s).current) := by
    rw [h.2.2.2.2.2, hne]; simp
  have hfire := fireTimer_some stringify (applyUpdates fs s)
    ((applyUpdates fs s).current) hpend
  refine ⟨h.1, ?_, hpend, h.2.2.2.1, ?_, hfire.2.1, hfire.1⟩
  · intro gs _
    exact (applyUpdates_spec gs s hi ha).1
  · rw [hfire.2.2.1, h.2.2.2.1]

/-- Witness for claim C1: two rapid updates on an initialized container;
the timer then writes exactly the last value. -/
theorem debounce_coalescing_witness :
    (⟨0, none, true, true, none, []⟩ : PState Nat).initialized = true ∧
    (⟨0, none, true, true, none, []⟩ : PState Nat).storageAvail = true ∧
    ([fun _ => 1, fun _ => 2] : List (Nat → Nat)) ≠ [] ∧
    ((applyUpdates [fun _ => 1, fun _ => 2] (⟨0, none, true, true, none, []⟩ : PState Nat)).current =
        [fun _ => (1 : Nat), fun _ => 2].foldl (fun v f => f v) 0 ∧
      (∀ gs, gs <+: ([fun _ => 1, fun _ => 2] : List (Nat → Nat)) →
        (applyUpdates gs (⟨0, none, true, true, none, []⟩ : PState Nat)).current =
          gs.foldl (fun v f => f v) 0) ∧
      (applyUpdates [fun _ => 1, fun _ => 2] (⟨0, none, true, true, none, []⟩ : PState Nat)).pending =
        some ((applyUpdates [fun _ => 1, fun _ => 2] (⟨0, none, true, true, none, []⟩ : PState Nat)).current) ∧
      (applyUpdates [fun _ => 1, fun _ => 2] (⟨0, none, true, true, none, []⟩ : PState Nat)).writeLog = [] ∧
      (fireTimer (fun n => String.mk (natToStr n))
          (applyUpdates [fun _ => 1, fun _ => 2] (⟨0, none, true, true, none, []⟩ : PState Nat))).writeLog =
        [] ++ [(fun n => String.mk (natToStr n))
          ((applyUpdates [fun _ => 1, fun _ => 2] (⟨0, none, true, true, none, []⟩ : PState Nat)).current)] ∧
      (fireTimer (fun n => String.mk (natToStr n))
          (applyUpdates [fun _ => 1, fun _ => 2] (⟨0, none, true, true, none, []⟩ : PState Nat))).stored =
        some ((fun n => String.mk (natToStr n))
          ((applyUpdates [fun _ => 1, fun _ => 2] (⟨0, none, true, true, none, []⟩ : PState Nat)).current)) ∧
      (fireTimer (fun n => String.mk (natToStr n))
          (applyUpdates [fun _ => 1, fun _ => 2] (⟨0, none, true, true, none, []⟩ : PState Nat))).pending = none) :=
  ⟨rfl, rfl, by simp,
    debounce_coalescing (fun n => String.mk (natToStr n)) [fun _ => 1, fun _ => 2]
      ⟨0, none, true, true, none, []⟩ rfl rfl (by simp)⟩

/-- Claim C10: with usable storage and an armed debounce timer,
`clearStoredValue` cancels the pending write and removes the stored entry
while leaving the in-memory state alone; however many timer events follow,
the cancelled write never executes and nothing re-creates the entry. -/
theorem clearStoredValue_cancels {V : Type} (stringify : V → String) (s : PState V)
    (v : V) (ha : s.storageAvail = true) (_hp : s.pending = some v) :
    (clearStoredValue s).pending = none ∧
    (clearStoredValue s).stored = none ∧
    (clearStoredValue s).current = s.current ∧
    (clearStoredValue s).writeLog = s.writeLog ∧
    (∀ n : Nat, ((fireTimer stringify)^[n] (clearStoredValue s)).stored = none ∧
      ((fireTimer stringify)^[n] (clearStoredValue s)).writeLog = s.writeLog) := by
  have hclear : clearStoredValue s = { s with pending := none, stored := none } := by
    simp [clearStoredValue, ha]
  have hfix : fireTimer stringify (clearStoredValue s) = clearStoredValue s := by
    rw [hclear]; rfl
  have hiter : ∀ n : Nat, (fireTimer stringify)^[n] (clearStoredValue s) =
      clearStoredValue s := fun n => Function.iterate_fixed hfix n
  refine ⟨by rw [hclear], by rw [hclear], by rw [hclear], by rw [hclear], ?_⟩
  intro n
  rw [hiter n, hclear]
  exact ⟨rfl, rfl⟩

/-- Witness for claim C10: a container with an armed timer; after `clear`
three timer events leave the entry removed and the write log empty. -/
theorem clearStoredValue_cancels_witness :
    (⟨7, some 9, true, true, some "old", []⟩ : PState Nat).storageAvail = true ∧
    (⟨7, some 9, true, true, some "old", []⟩ : PState Nat).pending = some 9 ∧
    (clearStoredValue (⟨7, some 9, true, true, some "old", []⟩ : PState Nat)).pending = none ∧
    (clearStoredValue (⟨7, some 9, true, true, some "old", []⟩ : PState Nat)).stored = none ∧
    ((fireTimer (fun n => String.mk (natToStr n)))^[3]
        (clearStoredValue (⟨7, some 9, true, true, some "old", []⟩ : PState Nat))).stored = none :=
  ⟨rfl, rfl,
    (clearStoredValue_cancels (fun n => String.mk (natToStr n)) _ 9 rfl rfl).1,
    (clearStoredValue_cancels (fun n => String.mk (natToStr n)) _ 9 rfl rfl).2.1,
    ((clearStoredValue_cancels (fun n => String.mk (natToStr n)) _ 9 rfl rfl).2.2.2.2 3).1⟩

/-! ### Analysis summary (claims C5, C6) -/

/-- A strict `<` that holds forces `>=` to fail (JS comparison semantics). -/
theorem jsLt_true_jsGe_false {a b : JsNum} (h : jsLt a b = true) :
    jsGe a b = false := by
  cases a <;> cases b <;> simp_all [jsLt, jsGe, jsLe]

/-- Claim C5: `createAnalysisSummary` branches exactly as specified — a
non-negative gap gives the "exceeds target" status and "sufficient"
capacity status, with the large-surplus recommendation exactly when the
gap exceeds 20% of the target; a negative gap gives the "below target"
status and "insufficient" capacity status, with the urgent recommendation
exactly when the absolute gap exceeds 10% of the target. -/
theorem createAnalysisSummary_branches (values : CalculatorValues)
    (results : CalculationResults) :
    (jsGe results.gap (.fin 0) = true →
      (createAnalysisSummary values results).status = statusExceeds ∧
      (createAnalysisSummary values results).capacityStatus = capacitySufficient ∧
      ((createAnalysisSummary values results).recommendation = recLargeSurplus ↔
        jsGt results.gap (jsMul values.targetDishes (.fin 0.2)) = true) ∧
      ((createAnalysisSummary values results).recommendation = recModerateSurplus ↔
        jsGt results.gap (jsMul values.targetDishes (.fin 0.2)) = false)) ∧
    (jsLt results.gap (.fin 0) = true →
      (createAnalysisSummary values results).status = statusBelow ∧
      (createAnalysisSummary values results).capacityStatus = capacityInsufficient ∧
      ((createAnalysisSummary values results).recommendation = recUrgentShortfall ↔
        jsGt (jsAbs results.gap) (jsMul values.targetDishes (.fin 0.1)) = true) ∧
      ((createAnalysisSummary values results).recommendation = recModerateShortfall ↔
        jsGt (jsAbs results.gap) (jsMul values.targetDishes (.fin 0.1)) = false)) := by
  have hd1 : recLargeSurplus ≠ recModerateSurplus := by decide
  have hd1s : recModerateSurplus ≠ recLargeSurplus := by decide
  have hd2 : recUrgentShortfall ≠ recModerateShortfall := by decide
  have hd2s : recModerateShortfall ≠ recUrgentShortfall := by decide
  constructor
  · intro hge
    cases hgt : jsGt results.gap (jsMul values.targetDishes (.fin 0.2)) with
    | true => simp [createAnalysisSummary, hge, hgt, hd1]
    | false => simp [createAnalysisSummary, hge, hgt, hd1s]
  · intro hlt
    have hge : jsGe results.gap (.fin 0) = false := jsLt_true_jsGe_false hlt
    cases habs : jsGt (jsAbs results.gap) (jsMul values.targetDishes (.fin 0.1)) with
    | true => simp [createAnalysisSummary, hge, habs, hd2]
    | false => simp [createAnalysisSummary, hge, habs, hd2s]

/-- Witness for claim C5: a positive gap of 111 dishes against a target of
200 lands in the exceeds-target branch. -/
theorem createAnalysisSummary_branches_witness :
    jsGe (⟨.fin 100, .fin 10, .fin 171, .fin 20, .fin 120, .fin 311, .fin 50, .fin 111,
        .fin 64⟩ : CalculationResults).gap (.fin 0) = true ∧
    ((createAnalysisSummary
        ⟨.fin 100, .fin 50, .fin 7, .fin 30, .fin 200, .fin 3, .fin 2, .fin 20, .fin 85,
          .fin 75, .fin 15⟩
        ⟨.fin 100, .fin 10, .fin 171, .fin 20, .fin 120, .fin 311, .fin 50, .fin 111,
          .fin 64⟩).status = statusExceeds ∧
      (createAnalysisSummary
        ⟨.fin 100, .fin 50, .fin 7, .fin 30, .fin 200, .fin 3, .fin 2, .fin 20, .fin 85,
          .fin 75, .fin 15⟩
        ⟨.fin 100, .fin 10, .fin 171, .fin 20, .fin 120, .fin 311, .fin 50, .fin 111,
          .fin 64⟩).capacityStatus = capacitySufficient ∧
      ((createAnalysisSummary
        ⟨.fin 100, .fin 50, .fin 7, .fin 30, .fin 200, .fin 3, .fin 2, .fin 20, .fin 85,
          .fin 75, .fin 15⟩
        ⟨.fin 100, .fin 10, .fin 171, .fin 20, .fin 120, .fin 311, .fin 50, .fin 111,
          .fin 64⟩).recommendation = recLargeSurplus ↔
        jsGt (JsNum.fin 111) (jsMul (JsNum.fin 200) (.fin 0.2)) = true) ∧
      ((createAnalysisSummary
        ⟨.fin 100, .fin 50, .fin 7, .fin 30, .fin 200, .fin 3, .fin 2, .fin 20, .fin 85,
          .fin 75, .fin 15⟩
        ⟨.fin 100, .fin 10, .fin 171, .fin 20, .fin 120, .fin 311, .fin 50, .fin 111,
          .fin 64⟩).recommendation = recModerateSurplus ↔
        jsGt (JsNum.fin 111) (jsMul (JsNum.fin 200) (.fin 0.2)) = false)) :=
  ⟨by simp [jsGe, jsLe, jsLt],
    (createAnalysisSummary_branches
      ⟨.fin 100, .fin 50, .fin 7, .fin 30, .fin 200, .fin 3, .fin 2, .fin 20, .fin 85,
        .fin 75, .fin 15⟩
      ⟨.fin 100, .fin 10, .fin 171, .fin 20, .fin 120, .fin 311, .fin 50, .fin 111,
        .fin 64⟩).1 (by simp [jsGe, jsLe, jsLt])⟩

/-- Rounding commutes with clamping at 100: `round (min 100 x)` is
`min 100 (round x)` for every JS number. -/
theorem jsRound_min100_comm (x : JsNum) :
    jsRound (jsMin (.fin 100) x) = jsMin (.fin 100) (jsRound x) := by
  have h100 : (⌊(100 : ℚ) + 2⁻¹⌋ : ℤ) = 100 := by
    rw [Int.floor_eq_iff]
    norm_num
  cases x with
  | nan => simp [jsMin, jsRound]
  | inf => simp [jsMin, jsRound, jsLt, h100]
  | ninf => simp [jsMin, jsRound, jsLt]
  | fin q =>
    by_cases hq : q < 100
    · have hlt : jsLt (JsNum.fin q) (JsNum.fin 100) = true := by simp [jsLt, hq]
      have hfloor_le : (⌊q + 2⁻¹⌋ : ℤ) < 101 := by
        rw [Int.floor_lt]; push_cast
        have h2 : (2⁻¹ : ℚ) < 1 := by norm_num
        linarith
      by_cases hf : ((⌊q + 2⁻¹⌋ : ℤ) : ℚ) < 100
      · have hlt2 : jsLt (JsNum.fin ((⌊q + 2⁻¹⌋ : ℤ) : ℚ)) (JsNum.fin 100) = true := by
          simp [jsLt, hf]
        simp [jsMin, jsRound, hlt, hlt2]
      · have h100le : (100 : ℤ) ≤ ⌊q + 2⁻¹⌋ := by
          have : (100 : ℚ) ≤ ((⌊q + 2⁻¹⌋ : ℤ) : ℚ) := le_of_not_lt hf
          exact_mod_cast this
        have heq : (⌊q + 2⁻¹⌋ : ℤ) = 100 := by omega
        have hlt2 : jsLt (JsNum.fin ((⌊q + 2⁻¹⌋ : ℤ) : ℚ)) (JsNum.fin 100) = false := by
          simp [jsLt, hf]
        simp [jsMin, jsRound, hlt, hlt2, heq]
    · have hlt : jsLt (JsNum.fin q) (JsNum.fin 100) = false := by simp [jsLt, hq]
      have h100le : (100 : ℤ) ≤ ⌊q + 2⁻¹⌋ := by
        rw [Int.le_floor]; push_cast
        have h1 : (100 : ℚ) ≤ q := le_of_not_lt hq
        have h2 : (0 : ℚ) < 2⁻¹ := by norm_num
        linarith
      have hlt2 : jsLt (JsNum.fin ((⌊q + 2⁻¹⌋ : ℤ) : ℚ)) (JsNum.fin 100) = false := by
        simp only [jsLt]
        simp only [decide_eq_false_iff_not, not_lt]
        exact_mod_cast h100le
      simp [jsMin, jsRound, hlt, hlt2, h100]

/-- Claim C6: the utilization rate returned by `createAnalysisSummary`
equals `min(100, round(targetDishes / totalCapacity * 100))` for every
inputs/results pair, including a zero total capacity (where the division
yields a signed infinity or NaN in the JS-number model). -/
theorem createAnalysisSummary_utilizationRate (values : CalculatorValues)
    (results : CalculationResults) :
    (createAnalysisSummary values results).utilizationRate =
      jsMin (.fin 100)
        (jsRound (jsMul (jsDiv values.targetDishes results.totalCapacity) (.fin 100))) := by
  have hu : (createAnalysisSummary values results).utilizationRate =
      jsRound (jsMin (.fin 100)
        (jsMul (jsDiv values.targetDishes results.totalCapacity) (.fin 100))) := by
    unfold createAnalysisSummary
    split_ifs <;> rfl
  rw [hu, jsRound_min100_comm]

/-! ### Zero-division guard in the capacity breakdown (claim C7) -/

/-- Claim C7: when the computed total capacity is zero, each of the three
percentage-of-total cells in the capacity-breakdown section (the fifth
section) of `convertToCSVSections` is exactly the text `0%` — the
division-by-zero path is never taken. -/
theorem convertToCSVSections_zero_guard (metadata : ExportMetadata)
    (values : CalculatorValues) (results : CalculationResults)
    (h : results.totalCapacity = .fin 0) :
    (convertToCSVSections (aggregateExportData metadata values results)).length = 5 ∧
    ((convertToCSVSections (aggregateExportData metadata values results)).getD 4
        ⟨[], [], []⟩).rows.map
      (fun row => List.lookup "% ของ Total Capacity".data row) =
      [some (.str "0%".data), some (.str "0%".data), some (.str "0%".data)] := by
  have hguard : jsGt (JsNum.fin 0) (JsNum.fin 0) = false := by simp [jsGt, jsLt]
  have hb1 : ("% ของ Total Capacity".data == "ประเภทลูกค้า".data) = false := by decide
  have hb2 : ("% ของ Total Capacity".data == "Capacity (จาน/วัน)".data) = false := by decide
  have hb3 : ("% ของ Total Capacity".data == "% ของ Total Capacity".data) = true := by decide
  constructor
  · simp [convertToCSVSections, aggregateExportData]
  · simp [convertToCSVSections, aggregateExportData, h, hguard, List.lookup,
      hb1, hb2, hb3, List.getD]

/-- Witness for claim C7: a concrete export record whose total capacity is
zero; all three breakdown percentage cells read `0%`. -/
theorem convertToCSVSections_zero_guard_witness :
    (⟨.fin 0, .fin 0, .fin 0, .fin 0, .fin 0, .fin 0, .fin 0, .fin (-200), .fin 0⟩ :
        CalculationResults).totalCapacity = .fin 0 ∧
    ((convertToCSVSections (aggregateExportData
          ⟨"d".data, "t".data, "a".data, "v".data, "z".data⟩
          ⟨.fin 100, .fin 50, .fin 7, .fin 30, .fin 200, .fin 3, .fin 2, .fin 20, .fin 85,
            .fin 75, .fin 15⟩
          ⟨.fin 0, .fin 0, .fin 0, .fin 0, .fin 0, .fin 0, .fin 0, .fin (-200),
            .fin 0⟩)).length = 5 ∧
      ((convertToCSVSections (aggregateExportData
          ⟨"d".data, "t".data, "a".data, "v".data, "z".data⟩
          ⟨.fin 100, .fin 50, .fin 7, .fin 30, .fin 200, .fin 3, .fin 2, .fin 20, .fin 85,
            .fin 75, .fin 15⟩
          ⟨.fin 0, .fin 0, .fin 0, .fin 0, .fin 0, .fin 0, .fin 0, .fin (-200),
            .fin 0⟩)).getD 4 ⟨[], [], []⟩).rows.map
        (fun row => List.lookup "% ของ Total Capacity".data row) =
        [some (.str "0%".data), some (.str "0%".data), some (.str "0%".data)]) :=
  ⟨rfl, convertToCSVSections_zero_guard
    ⟨"d".data, "t".data, "a".data, "v".data, "z".data⟩
    ⟨.fin 100, .fin 50, .fin 7, .fin 30, .fin 200, .fin 3, .fin 2, .fin 20, .fin 85,
      .fin 75, .fin 15⟩
    ⟨.fin 0, .fin 0, .fin 0, .fin 0, .fin 0, .fin 0, .fin 0, .fin (-200), .fin 0⟩ rfl⟩

/-! ### CSV validation (claim C9) -/

/-- Claim C9, counterexample to "reports the 1-based line numbers of the
offending lines": with a blank second line, the only offending non-blank
line `c` is line 3 of the input, yet the warning reports 2 — its 1-based
position among the non-blank lines, not its line number in the input. -/
theorem validateCsvContent_line_number_counterexample :
    (validateCsvContent "a,b\n\nc".data).warnings =
      ["Inconsistent column counts found in lines: 2".data] ∧
    List.splitOn '\n' "a,b\n\nc".data = ["a,b".data, [], "c".data] ∧
    "Inconsistent column counts found in lines: 3".data ∉
      (validateCsvContent "a,b\n\nc".data).warnings := by
  refine ⟨by decide, by decide, by decide⟩

/-- Claim C9, amended: `validateCsvContent` (a pure function of its input)
flags empty or whitespace-only content as the single error with `isValid`
false; on any other content it returns `isValid` true with no errors, and
warns about inconsistent comma-separated field counts exactly when some
non-blank line's count differs from the first non-blank line's, reporting
each offending line's 1-based position among the non-blank lines (not its
input line number), alongside the encoding and size warnings. -/
theorem validateCsvContent_spec (content : Str) :
    (jsTrim content = [] →
      validateCsvContent content = ⟨false, [], [emptyContentMsg]⟩) ∧
    (jsTrim content ≠ [] →
      validateCsvContent content =
        ⟨true,
          (let ne := (List.splitOn '\n' content).filter (fun line => (jsTrim line).length > 0)
           let offenders := (ne.enum.filter
               (fun p => (List.splitOn ',' p.2).length ≠
                 (List.splitOn ',' (ne.headD [])).length)).map (fun p => p.1 + 1)
           if 1 < ne.length ∧ offenders ≠ [] then
             [inconsistentColumnsMsg ++ List.intercalate ", ".data (offenders.map natToStr)]
           else []) ++
          (if containsSeq replacementSeq content then [encodingWarningMsg] else []) ++
          (if utf8Len content > 10 * 1024 * 1024 then
             [largeSizeMsg (toFixed2 ((utf8Len content : ℚ) / (1024 * 1024)))]
           else []),
          []⟩) := by
  have key : ∀ ne : List Str,
      (if ne.length > 1 then
        (let firstLineColumns := (List.splitOn ',' (ne.headD [])).length
         let inconsistentLines :=
           (ne.enum.map (fun p => ((List.splitOn ',' p.2).length, p.1))).filter
             (fun item => item.1 ≠ firstLineColumns)
         if inconsistentLines.length > 0 then
           [inconsistentColumnsMsg ++ List.intercalate ", ".data
             (inconsistentLines.map (fun item => natToStr (item.2 + 1)))]
         else [])
      else []) =
      (if 1 < ne.length ∧
          ((ne.enum.filter (fun p => (List.splitOn ',' p.2).length ≠
              (List.splitOn ',' (ne.headD [])).length)).map (fun p => p.1 + 1)) ≠ [] then
         [inconsistentColumnsMsg ++ List.intercalate ", ".data
           ((((ne.enum.filter (fun p => (List.splitOn ',' p.2).length ≠
               (List.splitOn ',' (ne.headD [])).length)).map (fun p => p.1 + 1))).map natToStr)]
       else []) := by
    intro ne
    by_cases h1 : ne.length > 1
    · have hmf : (ne.enum.map (fun p => ((List.splitOn ',' p.2).length, p.1))).filter
          (fun item => item.1 ≠ (List.splitOn ',' (ne.headD [])).length) =
          (ne.enum.filter (fun p => (List.splitOn ',' p.2).length ≠
            (List.splitOn ',' (ne.headD [])).length)).map
            (fun p => ((List.splitOn ',' p.2).length, p.1)) := by
        rw [List.filter_map]
        rfl
      simp only [if_pos h1, hmf]
      set F := ne.enum.filter (fun p => (List.splitOn ',' p.2).length ≠
        (List.splitOn ',' (ne.headD [])).length) with hF
      by_cases h2 : F = []
      · rw [h2]
        simp [h1]
      · have hlen : (F.map (fun p => ((List.splitOn ',' p.2).length, p.1))).length > 0 := by
          rw [List.length_map]
          exact List.length_pos.mpr h2
        have hoff : F.map (fun p => p.1 + 1) ≠ [] := by
          intro hcon
          exact h2 (by simpa using hcon)
        rw [if_pos hlen, if_pos ⟨h1, hoff⟩]
        simp only [List.map_map]
        have hmaps : List.map ((fun (item : Nat × Nat) => natToStr (item.2 + 1)) ∘
            fun (p : Nat × Str) => ((List.splitOn ',' p.2).length, p.1)) F =
            List.map (natToStr ∘ fun (p : Nat × Str) => p.1 + 1) F :=
          List.map_congr_left (fun p _ => rfl)
        rw [hmaps]
    · simp [h1]
  constructor
  · intro h
    simp [validateCsvContent, h]
  · intro h
    have hco := key ((List.splitOn '\n' content).filter (fun line => (jsTrim line).length > 0))
    simp only [validateCsvContent, if_neg h]
    rw [hco]
    rfl

/-- Witness for the amended claim C9 at a concrete two-line content with a
mismatched second line. -/
theorem validateCsvContent_spec_witness :
    jsTrim "a,b\nc".data ≠ [] ∧
    validateCsvContent "a,b\nc".data =
      ⟨true,
        (let ne := (List.splitOn '\n' "a,b\nc".data).filter
            (fun line => (jsTrim line).length > 0)
         let offenders := (ne.enum.filter
             (fun p => (List.splitOn ',' p.2).length ≠
               (List.splitOn ',' (ne.headD [])).length)).map (fun p => p.1 + 1)
         if 1 < ne.length ∧ offenders ≠ [] then
           [inconsistentColumnsMsg ++ List.intercalate ", ".data (offenders.map natToStr)]
         else []) ++
        (if containsSeq replacementSeq "a,b\nc".data then [encodingWarningMsg] else []) ++
        (if utf8Len "a,b\nc".data > 10 * 1024 * 1024 then
           [largeSizeMsg (toFixed2 ((utf8Len "a,b\nc".data : ℚ) / (1024 * 1024)))]
         else []),
        []⟩ :=
  ⟨by decide, (validateCsvContent_spec "a,b\nc".data).2 (by decide)⟩

end SanehCalc
